import Mathlib

/-!
Shallow embedding of the import-map synchronization gateway implemented by
the importMapPlugin Vite plug-in (plugin-factory of the aim package).

Modeling conventions:
- JavaScript strings are Lean strings; indices and lengths count characters.
- Parsed JSON values (the output of JSON.parse) are an inductive type whose
  objects are association lists in insertion order; JSON.parse never yields
  an object with duplicate keys, which some theorems use as a hypothesis.
- The HTTP handlers are pure functions from their inputs and the gateway
  state to a new state plus a response; the readiness gate is the Boolean
  gateSignaled of the state, and waiting on it is represented by the
  outcome the wait can have (ready, timed out, or threw).
-/

/-- Model of a parsed JSON value. The numeric payload is irrelevant to the
gateway and is modeled as an integer. -/
inductive Json where
  | null : Json
  | bool (b : Bool) : Json
  | num (n : Int) : Json
  | str (s : String) : Json
  | arr (elems : List Json) : Json
  | obj (entries : List (String × Json)) : Json

/-- JavaScript truthiness of a JSON value (null, false, 0 and the empty
string are falsy; every object and array is truthy). -/
def jsTruthy : Json → Bool
  | .null => false
  | .bool b => b
  | .num n => n != 0
  | .str s => s != ""
  | .arr _ => true
  | .obj _ => true

/-- JavaScript Object.keys on a JSON value: property names of an object in
insertion order, index strings for arrays and strings, empty otherwise. -/
def jsObjectKeys : Json → List String
  | .obj entries => entries.map Prod.fst
  | .arr elems => (List.range elems.length).map (fun i => toString i)
  | .str s => (List.range s.length).map (fun i => toString i)
  | _ => []

/-- Lexicographic comparison of character lists by code point; this is the
order the default JS Array.prototype.sort comparator induces on strings. -/
def charListLe : List Char → List Char → Bool
  | [], _ => true
  | _ :: _, [] => false
  | a :: as, b :: bs => if a < b then true else if b < a then false else charListLe as bs

/-- The string order used when the validator sorts the key array. -/
def jsStrLe (a b : String) : Bool :=
  charListLe a.data b.data

/-- The shape validator validateIm of the receiver endpoint. The source
throws unless the value has typeof object, is not null, and its sorted key
array has length 2 with entries "imports" and "scopes"; that index check is
written here as equality with the two-element list. -/
def validateIm (im : Json) : Bool :=
  match im with
  | .null => false
  | .bool _ => false
  | .num _ => false
  | .str _ => false
  | _ =>
    decide
      (List.insertionSort (fun a b => jsStrLe a b = true) (jsObjectKeys im) =
        ["imports", "scopes"])

/-- Substring containment, as JS String.prototype.includes (over the
character lists of the two strings). -/
def listIsInfixOf (p : List Char) (l : List Char) : Bool :=
  match l with
  | [] => p.isEmpty
  | c :: t => p.isPrefixOf (c :: t) || listIsInfixOf p t

/-- JS s.includes(pat). -/
def jsIncludes (s pat : String) : Bool :=
  listIsInfixOf pat.data s.data

/-- The origin check isOriginAllowed of the receiver endpoint. A missing
header pair (both Origin and Referer absent) is the none case; the empty
string is falsy in JS, so it is rejected by the initial !origin test. -/
def isOriginAllowed (allowedOrigins : List String) (origin : Option String) : Bool :=
  match origin with
  | none => false
  | some o =>
    if o = "" then false
    else if jsIncludes o "localhost" || jsIncludes o "127.0.0.1" || jsIncludes o "[::1]" then true
    else allowedOrigins.any (fun allowed => jsIncludes o allowed)

/-- An HTTP response as produced by writeHead plus end. -/
structure HttpResponse where
  status : Nat
  headers : List (String × String)
  body : Option String
deriving Repr, DecidableEq

/-- The gateway state: the stored import map and the readiness gate. -/
structure GatewayState where
  importMap : Json
  gateSignaled : Bool

/-- State at dev-server start: importMap is the literal with an empty
imports object, and the ManualResetEvent is initially unsignaled. -/
def initialGatewayState : GatewayState :=
  { importMap := Json.obj [("imports", Json.obj [])], gateSignaled := false }

/-- Number of imports reported on success:
Object.keys(importMap.imports or empty).length. -/
def importsCount (im : Json) : Nat :=
  match im with
  | .obj entries =>
    match entries.lookup "imports" with
    | some v => if jsTruthy v then (jsObjectKeys v).length else 0
    | none => 0
  | _ => 0

/-- The 403 response of the receiver endpoint. -/
def originNotAllowedResponse : HttpResponse :=
  { status := 403
    headers := [("Content-Type", "application/json")]
    body := some "\x7b\"error\":\"Origin not allowed\"\x7d" }

/-- The 400 response of the receiver endpoint, produced by the catch block
on JSON.parse failure or on shape-validation failure. -/
def invalidImportMapResponse : HttpResponse :=
  { status := 400
    headers := [("Content-Type", "application/json")]
    body := some "\x7b\"error\":\"Invalid import map data\"\x7d" }

/-- The 200 response of the receiver endpoint. -/
def importMapSuccessResponse (n : Nat) : HttpResponse :=
  { status := 200
    headers := [("Content-Type", "application/json"),
                ("Access-Control-Allow-Origin", "*"),
                ("Access-Control-Allow-Methods", "POST, OPTIONS"),
                ("Access-Control-Allow-Headers", "Content-Type")]
    body := some ("\x7b\"success\":true,\"imports\":" ++ toString n ++ "\x7d") }

/-- The POST branch of the receiver endpoint: origin check, then body parse
(a parse failure is the none case of parsedBody), then shape validation;
on success the stored map is replaced as a whole and the gate signaled. -/
def handlePost (allowedOrigins : List String) (origin : Option String)
    (parsedBody : Option Json) (st : GatewayState) : GatewayState × HttpResponse :=
  if !(isOriginAllowed allowedOrigins origin) then
    (st, originNotAllowedResponse)
  else
    match parsedBody with
    | none => (st, invalidImportMapResponse)
    | some im =>
      if validateIm im then
        ({ importMap := im, gateSignaled := true }, importMapSuccessResponse (importsCount im))
      else
        (st, invalidImportMapResponse)

/-- JS s.startsWith(pat), computed over the character lists. -/
def jsStartsWith (s pat : String) : Bool :=
  pat.data.isPrefixOf s.data

/-- JS s.endsWith(pat), computed over the character lists. -/
def jsEndsWith (s pat : String) : Bool :=
  pat.data.reverse.isPrefixOf s.data.reverse

/-- JS s.slice(n), dropping the n first code units. -/
def jsStringDrop (s : String) (n : Nat) : String :=
  String.mk (s.data.drop n)

/-- The prefix-mapping loop of resolveFromImportMap: iterate the entries in
insertion order; the first key ending in a slash that the identifier starts
with wins, returning the value plus the remainder of the identifier. -/
def resolvePrefixScan (entries : List (String × String)) (id : String) : Option String :=
  match entries with
  | [] => none
  | (key, value) :: rest =>
    if jsEndsWith key "/" && jsStartsWith id key then
      some (value ++ jsStringDrop id key.length)
    else resolvePrefixScan rest id

/-- resolveFromImportMap of the plug-in. The direct-mapping test in the
source is a JS truthiness test of imports[id], so an exact key whose value
is the empty string falls through to the prefix loop. -/
def resolveFromImportMap (imports : List (String × String)) (id : String) : Option String :=
  match imports.lookup id with
  | some v => if v = "" then resolvePrefixScan imports id else some v
  | none => resolvePrefixScan imports id

/-- Result of the resolveId hook. -/
structure ResolveIdResult where
  id : String
  external : Bool
deriving Repr, DecidableEq

/-- Default isBareIdentifier option of the plug-in. -/
def defaultIsBareIdentifier (id : String) : Bool :=
  jsStartsWith id "@"

/-- JS value-or fallback, as in the expression resolved or id: the empty
string is falsy, so it also selects the fallback. -/
def jsOrElse (v : Option String) (fallback : String) : String :=
  match v with
  | some s => if s = "" then fallback else s
  | none => fallback

/-- The resolveId hook: non-bare identifiers are left to other plug-ins;
bare identifiers are returned marked external, with the emitted id computed
as resolved-or-original. -/
def resolveIdHook (isBare : String → Bool) (imports : List (String × String))
    (id : String) : Option ResolveIdResult :=
  if !(isBare id) then none
  else some { id := jsOrElse (resolveFromImportMap imports id) id, external := true }

/-- JS whitespace characters relevant to trim and to the character class
in the import-statement regex (space, tab, and the line terminators). -/
def jsWsChar (c : Char) : Bool :=
  c = ' ' || c = '\t' || c = '\n' || c = '\r' || c = '\x0b' || c = '\x0c'

/-- Line terminators as seen by the dot and the multiline anchors of JS
regular expressions (the astral separators are not modeled). -/
def isLineTerminator (c : Char) : Bool :=
  c = '\n' || c = '\r'

/-- JS String.prototype.trim. -/
def jsTrim (s : String) : String :=
  String.mk (((s.data.dropWhile jsWsChar).reverse.dropWhile jsWsChar).reverse)

/-- Drop trailing slashes, the replace of the first joinPaths part. -/
def dropTrailingSlashes (s : String) : String :=
  String.mk ((s.data.reverse.dropWhile (fun c => c = '/')).reverse)

/-- Drop leading and trailing slashes, the replace of the later joinPaths
parts. -/
def dropEdgeSlashes (s : String) : String :=
  String.mk (((s.data.dropWhile (fun c => c = '/')).reverse.dropWhile (fun c => c = '/')).reverse)

/-- joinPaths of the plug-in: the configured base is prepended, the first
part keeps its leading slashes but loses trailing ones, the other parts
lose both, empty parts are dropped, and the rest are joined with slashes. -/
def joinPaths (base : String) (paths : List String) : String :=
  String.intercalate "/"
    ((dropTrailingSlashes (jsTrim base) :: paths.map (fun p => dropEdgeSlashes (jsTrim p))).filter
      (fun x => x ≠ ""))

/-- stockPathExceptions of configureServer: index.html, the document root,
the Vite client runtime, and, on root instances only, the sender script. -/
def stockPathExceptions (base : String) (isRoot : Bool) (importMapSenderEndpoint : String) :
    List String :=
  [joinPaths base ["/index.html"], joinPaths base ["/"], joinPaths base ["/@vite/client"]] ++
    (if isRoot then [joinPaths base [importMapSenderEndpoint]] else [])

/-- shouldBlockJavaScriptRequest of configureServer: pass through unless in
serve mode, on a GET, with the gate unsignaled and the URL not in the
exception list. Membership uses exact string equality, as Array.includes. -/
def shouldBlockJavaScriptRequest (command : String) (gateSignaled : Bool)
    (pathExceptions : List String) (method url : String) : Bool :=
  if command ≠ "serve" then false
  else if method ≠ "GET" then false
  else if gateSignaled then false
  else if url ∈ pathExceptions then false
  else true

/-- Outcome of awaiting the ManualResetEvent with a timeout. -/
inductive WaitOutcome where
  | ready
  | timedOut
  | threw
deriving Repr, DecidableEq

/-- A log line with its level. -/
structure LogEntry where
  level : String
  message : String
deriving Repr, DecidableEq

/-- Observable effects of one run of the blocking middleware. -/
structure MiddlewareRun where
  logs : List LogEntry
  nextCalled : Bool
  response : Option HttpResponse
deriving Repr, DecidableEq

/-- The request-blocking middleware: unblocked requests go straight to
next; blocked ones log, await the gate inside a try, log the outcome (the
catch logs a warning as well), and then always call next. It never writes
a response of its own. -/
def blockingMiddleware (shouldBlock : Bool) (wait : WaitOutcome) : MiddlewareRun :=
  if !shouldBlock then { logs := [], nextCalled := true, response := none }
  else
    let blockedLog : LogEntry :=
      { level := "warn", message := "Blocking JS request until the import map is received" }
    match wait with
    | .ready =>
      { logs := [blockedLog, { level := "info", message := "Import map received, proceeding" }]
        nextCalled := true
        response := none }
    | .timedOut =>
      { logs := [blockedLog,
                 { level := "warn", message := "Timeout waiting for import map, proceeding without it" }]
        nextCalled := true
        response := none }
    | .threw =>
      { logs := [blockedLog,
                 { level := "warn", message := "Error waiting for import map, proceeding without it" }]
        nextCalled := true
        response := none }

/-- A Node HTTP response object: at most one writeHead, then at most one
end carrying the body. -/
structure NodeResponse where
  headWritten : Option (Nat × List (String × String))
  ended : Option String
deriving Repr, DecidableEq

/-- A response object before any write. -/
def freshResponse : NodeResponse :=
  { headWritten := none, ended := none }

/-- Node res.writeHead: it may only be called once per response; a second
call throws ERR_HTTP_HEADERS_SENT and changes nothing. -/
def writeHead (res : NodeResponse) (status : Nat) (headers : List (String × String)) :
    Except String NodeResponse :=
  match res.headWritten with
  | some _ => Except.error "ERR_HTTP_HEADERS_SENT"
  | none => Except.ok { res with headWritten := some (status, headers) }

/-- What one run of the sender-script middleware leaves behind: the final
response object and whether the handler threw. -/
structure SenderScriptServed where
  res : NodeResponse
  threw : Bool
deriving Repr, DecidableEq

/-- JS string interpolation of a boolean. -/
def boolLiteral (b : Bool) : String :=
  if b then "true" else "false"

/-- The placeholder substitution applied to the sender script: the replace
of the trailing immediately-invoked call with one passing the is-root
literal and the receiver endpoint URL; the pattern is anchored at the very
end of the text. -/
def substituteSenderPlaceholders (script : String) (isRoot : Bool) (endpointUrl : String) :
    String :=
  if jsEndsWith script "\x7d)();" then
    String.mk (script.data.take (script.data.length - 5)) ++ "\x7d)(" ++ boolLiteral isRoot ++
      ", \x27" ++ endpointUrl ++ "\x27);"
  else script

/-- The sender-script middleware of configureServer. The source calls
writeHead with 200 and the JavaScript content type before entering the try
block that reads the script file; on a read failure the catch attempts
writeHead with 500, which throws because the head was already written, so
the JSON error body is never sent. -/
def senderScriptMiddleware (isRoot : Bool) (endpointUrl : String)
    (readResult : Except String String) : SenderScriptServed :=
  match writeHead freshResponse 200
      [("Content-Type", "application/javascript"), ("Access-Control-Allow-Origin", "*")] with
  | Except.error _ => { res := freshResponse, threw := true }
  | Except.ok res1 =>
    match readResult with
    | Except.ok script =>
      { res := { res1 with ended := some (substituteSenderPlaceholders script isRoot endpointUrl) }
        threw := false }
    | Except.error _ =>
      match writeHead res1 500 [("Content-Type", "application/json")] with
      | Except.error _ => { res := res1, threw := true }
      | Except.ok res2 =>
        { res := { res2 with ended := some "\x7b\"error\":\"Failed to load sender script\"\x7d" }
          threw := false }

/-- Length of the maximal run of JS whitespace at the head of a text. -/
def wsRunLength : List Char → Nat
  | [] => 0
  | c :: rest => if jsWsChar c then wsRunLength rest + 1 else 0

/-- Number of characters before the first line terminator. -/
def lineContentLength : List Char → Nat
  | [] => 0
  | c :: rest => if isLineTerminator c then 0 else lineContentLength rest + 1

/-- Continuation of the regex attempt after the literal import: one
whitespace character, then at least one character up to the end of that
line; w is the length of the whitespace run already consumed. -/
def importBodyLength (w : Nat) : List Char → Option Nat
  | [] => none
  | c :: rest =>
    if jsWsChar c then
      if lineContentLength rest = 0 then none
      else some (w + 7 + lineContentLength rest)
    else none

/-- One attempt of the import-statement regex at a position where the
multiline caret holds, returning the match length. The pattern is optional
whitespace (which may span lines), the word import, one whitespace
character, then at least one character up to the end of that line; the
optional semicolon and the dollar anchor are then automatically satisfied
at the line end. -/
def importMatchLength (t : List Char) : Option Nat :=
  if (t.drop (wsRunLength t)).take 6 = "import".data then
    importBodyLength (wsRunLength t) ((t.drop (wsRunLength t)).drop 6)
  else none

/-- Positions just after each line terminator, paired with the implicit
start of text; these are exactly the positions where the multiline caret
can hold. -/
def lineStartsAux : List Char → Nat → List Nat
  | [], _ => []
  | c :: rest, i =>
    if isLineTerminator c then (i + 1) :: lineStartsAux rest (i + 1)
    else lineStartsAux rest (i + 1)

/-- All caret positions of a text, in increasing order. -/
def lineStarts (s : List Char) : List Nat :=
  0 :: lineStartsAux s 0

/-- The exec loop of findLastImportStatement: try each caret position at
or after the current lastIndex in order, and remember the end position of
the most recent match. -/
def lastImportScan (s : List Char) : List Nat → Nat → Option Nat → Option Nat
  | [], _, acc => acc
  | c :: rest, minPos, acc =>
    if c < minPos then lastImportScan s rest minPos acc
    else
      match importMatchLength (s.drop c) with
      | none => lastImportScan s rest minPos acc
      | some len => lastImportScan s rest (c + len) (some (c + len))

/-- findLastImportStatement of the plug-in: the index just past the last
match of the import-statement regex, or minus one when there is none. -/
def findLastImportStatement (code : String) : Int :=
  match lastImportScan code.data (lineStarts code.data) 0 none with
  | none => -1
  | some e => Int.ofNat e

/-- The transform applied to the Vite client script: splice the sender
script just after the last import statement, or prepend it when no import
statement is found. -/
def injectSenderScript (imsScript code : String) : String :=
  if findLastImportStatement code = -1 then imsScript ++ "\n" ++ code
  else
    String.mk (code.data.take (findLastImportStatement code).toNat) ++ "\n" ++ imsScript ++
      "\n" ++ String.mk (code.data.drop (findLastImportStatement code).toNat)

/-- The transform hook: inactive on build; rewrites only the dev-server
client runtime module. -/
def transformHook (command : String) (id : String) (imsScript code : String) : Option String :=
  if command = "build" then none
  else if jsEndsWith id "/vite/dist/client/client.mjs" then
    some (injectSenderScript imsScript code)
  else none

/-- Claim-side predicate for C1: the posted value is a non-null JSON
object whose key set is exactly imports and scopes. Since parsed JSON
objects carry each key once, having exactly those keys is permutation of
the two-element list. -/
def importMapShapeSpec (j : Json) : Prop :=
  ∃ entries, j = Json.obj entries ∧ (entries.map Prod.fst).Perm ["imports", "scopes"]

/-- Claim-side predicate for C4 (amended): the resolved origin is present,
non-empty, and contains one of the loopback markers or a configured
allow-list entry as a substring. -/
def originAllowedSpec (allowedOrigins : List String) (origin : Option String) : Prop :=
  match origin with
  | none => False
  | some o =>
    o ≠ "" ∧
      (jsIncludes o "localhost" = true ∨ jsIncludes o "127.0.0.1" = true ∨
        jsIncludes o "[::1]" = true ∨ ∃ a ∈ allowedOrigins, jsIncludes o a = true)

/-- Claim-side helper for C4: the host component of an origin string of
the shape scheme colon-slash-slash host, up to a port or path separator;
used to state that an origin is or is not a loopback address. -/
def dropThroughSchemeSep : List Char → List Char
  | [] => []
  | ':' :: '/' :: '/' :: rest => rest
  | _ :: rest => dropThroughSchemeSep rest

/-- Modelled from the spec for claim C4: the host of an origin URL. -/
def originHost (origin : String) : String :=
  String.mk ((dropThroughSchemeSep origin.data).takeWhile (fun c => c ≠ ':' && c ≠ '/'))

/-! Theorems. -/

theorem charListLe_total (x y : List Char) : charListLe x y = true ∨ charListLe y x = true := by
  induction x generalizing y with
  | nil => left; rfl
  | cons a as ih =>
    cases y with
    | nil => right; rfl
    | cons b bs =>
      rcases lt_trichotomy a b with h | h | h
      · left; simp [charListLe, h]
      · subst h
        rcases ih bs with h2 | h2
        · left; simp [charListLe, lt_irrefl, h2]
        · right; simp [charListLe, lt_irrefl, h2]
      · right; simp [charListLe, h]

theorem charListLe_trans {x y z : List Char} (hxy : charListLe x y = true)
    (hyz : charListLe y z = true) : charListLe x z = true := by
  induction x generalizing y z with
  | nil => rfl
  | cons a as ih =>
    cases y with
    | nil => simp [charListLe] at hxy
    | cons b bs =>
      cases z with
      | nil => simp [charListLe] at hyz
      | cons c cs =>
        simp only [charListLe] at hxy hyz ⊢
        rcases lt_trichotomy a b with hab | hab | hab
        · rcases lt_trichotomy b c with hbc | hbc | hbc
          · simp [lt_trans hab hbc]
          · subst hbc; simp [hab]
          · simp [lt_asymm hbc, hbc] at hyz
        · subst hab
          rcases lt_trichotomy a c with hac | hac | hac
          · simp [hac]
          · subst hac
            simp only [lt_irrefl, if_false] at hxy hyz ⊢
            exact ih hxy hyz
          · simp [lt_asymm hac, hac] at hyz
        · simp [lt_asymm hab, hab] at hxy

theorem charListLe_antisymm {x y : List Char} (hxy : charListLe x y = true)
    (hyx : charListLe y x = true) : x = y := by
  induction x generalizing y with
  | nil =>
    cases y with
    | nil => rfl
    | cons b bs => simp [charListLe] at hyx
  | cons a as ih =>
    cases y with
    | nil => simp [charListLe] at hxy
    | cons b bs =>
      simp only [charListLe] at hxy hyx
      rcases lt_trichotomy a b with h | h | h
      · simp [lt_asymm h, h] at hyx
      · subst h
        simp only [lt_irrefl, if_false] at hxy hyx
        rw [ih hxy hyx]
      · simp [lt_asymm h, h] at hxy

instance jsStrLeTotal : IsTotal String (fun a b => jsStrLe a b = true) :=
  ⟨fun a b => charListLe_total a.data b.data⟩

instance jsStrLeTrans : IsTrans String (fun a b => jsStrLe a b = true) :=
  ⟨fun _ _ _ hab hbc => charListLe_trans hab hbc⟩

instance jsStrLeAntisymm : IsAntisymm String (fun a b => jsStrLe a b = true) :=
  ⟨fun a b hab hba => by
    cases a
    cases b
    exact congrArg String.mk (charListLe_antisymm hab hba)⟩

theorem sortedKeys_eq_iff_perm (keys : List String) :
    List.insertionSort (fun a b => jsStrLe a b = true) keys = ["imports", "scopes"] ↔
      keys.Perm ["imports", "scopes"] := by
  constructor
  · intro h
    have hp := List.perm_insertionSort (fun a b : String => jsStrLe a b = true) keys
    rw [h] at hp
    exact hp.symm
  · intro h
    have hs : List.Sorted (fun a b : String => jsStrLe a b = true)
        (List.insertionSort (fun a b => jsStrLe a b = true) keys) :=
      List.sorted_insertionSort _ keys
    have hp : (List.insertionSort (fun a b => jsStrLe a b = true) keys).Perm
        ["imports", "scopes"] :=
      (List.perm_insertionSort _ keys).trans h
    exact List.eq_of_perm_of_sorted hp hs (by decide)

theorem validateIm_iff (j : Json) : validateIm j = true ↔ importMapShapeSpec j := by
  cases j with
  | null => simp [validateIm, importMapShapeSpec]
  | bool b => simp [validateIm, importMapShapeSpec]
  | num n => simp [validateIm, importMapShapeSpec]
  | str s => simp [validateIm, importMapShapeSpec]
  | arr elems =>
    simp only [validateIm, jsObjectKeys, decide_eq_true_eq]
    constructor
    · intro h
      exfalso
      have hp := (sortedKeys_eq_iff_perm _).mp h
      have hlen : elems.length = 2 := by
        have := hp.length_eq
        simpa using this
      rw [hlen] at hp
      have hp2 : (["0", "1"] : List String).Perm ["imports", "scopes"] := by
        simpa [List.range_succ] using hp
      have hmem : ("0" : String) ∈ (["imports", "scopes"] : List String) :=
        hp2.subset (by decide)
      simp at hmem
    · rintro ⟨entries, hEq, -⟩
      cases hEq
  | obj entries =>
    simp only [validateIm, jsObjectKeys, decide_eq_true_eq]
    rw [sortedKeys_eq_iff_perm]
    constructor
    · intro h
      exact ⟨entries, rfl, h⟩
    · rintro ⟨e2, hEq, hperm⟩
      injection hEq with hEq
      subst hEq
      exact hperm

theorem isOriginAllowed_iff_spec (allowedOrigins : List String) (origin : Option String) :
    isOriginAllowed allowedOrigins origin = true ↔ originAllowedSpec allowedOrigins origin := by
  cases origin with
  | none => simp [isOriginAllowed, originAllowedSpec]
  | some o =>
    simp only [isOriginAllowed, originAllowedSpec]
    split_ifs with h0 hl
    · simp [h0]
    · simp only [Bool.or_eq_true] at hl
      constructor
      · intro _
        exact ⟨h0, by tauto⟩
      · intro _
        rfl
    · simp only [Bool.or_eq_true] at hl
      push_neg at hl
      obtain ⟨⟨hl1, hl2⟩, hl3⟩ := hl
      rw [List.any_eq_true]
      constructor
      · rintro ⟨a, ha, hi⟩
        exact ⟨h0, Or.inr (Or.inr (Or.inr ⟨a, ha, hi⟩))⟩
      · rintro ⟨-, h | h | h | ⟨a, ha, hi⟩⟩
        · exact absurd h hl1
        · exact absurd h hl2
        · exact absurd h hl3
        · exact ⟨a, ha, hi⟩

/-- C1: for every parsed JSON value posted to the receiver endpoint (and an
allowed origin, so the request reaches body processing), the shape
validation accepts, answering 200, exactly when the value is a non-null
object whose key set is exactly imports and scopes; otherwise the endpoint
answers 400 with the JSON body error Invalid import map data. Acceptance
depends only on the top-level key multiset, so no inner value is
inspected. -/
theorem c1_shape_validation (allowedOrigins : List String) (origin : Option String)
    (im : Json) (st : GatewayState) (h : isOriginAllowed allowedOrigins origin = true) :
    ((handlePost allowedOrigins origin (some im) st).2.status = 200 ↔ importMapShapeSpec im) ∧
      ((handlePost allowedOrigins origin (some im) st).2 = invalidImportMapResponse ↔
        ¬ importMapShapeSpec im) := by
  cases hv : validateIm im with
  | true =>
    have hspec := (validateIm_iff im).mp hv
    simp [handlePost, h, hv, importMapSuccessResponse, invalidImportMapResponse, hspec]
  | false =>
    have hspec : ¬ importMapShapeSpec im := fun hs => by
      rw [(validateIm_iff im).mpr hs] at hv
      cases hv
    simp [handlePost, h, hv, importMapSuccessResponse, invalidImportMapResponse, hspec]

theorem c1_shape_validation_witness :
    isOriginAllowed [] (some "http://localhost:5555") = true ∧
      (handlePost [] (some "http://localhost:5555")
          (some (Json.obj [("imports", Json.obj []), ("scopes", Json.obj [])]))
          initialGatewayState).2.status = 200 ∧
      (handlePost [] (some "http://localhost:5555") (some (Json.obj [("imports", Json.obj [])]))
          initialGatewayState).2 = invalidImportMapResponse := by
  refine ⟨by decide, ?_, ?_⟩
  · exact (c1_shape_validation [] (some "http://localhost:5555") _ initialGatewayState
      (by decide)).1.mpr ⟨[("imports", Json.obj []), ("scopes", Json.obj [])], rfl, by decide⟩
  · refine (c1_shape_validation [] (some "http://localhost:5555") _ initialGatewayState
      (by decide)).2.mpr ?_
    rintro ⟨entries, hEq, hperm⟩
    injection hEq with hEq
    subst hEq
    simp at hperm

/-- C4 (counterexample): a POST whose origin is not a loopback address
(its host is evil-localhost.example) and with an empty allow-list is
nonetheless accepted by the origin check and not rejected with 403,
because the source tests the loopback markers by substring containment on
the whole origin string. -/
theorem c4_counterexample :
    isOriginAllowed [] (some "http://evil-localhost.example") = true ∧
      originHost "http://evil-localhost.example" ≠ "localhost" ∧
      originHost "http://evil-localhost.example" ≠ "127.0.0.1" ∧
      originHost "http://evil-localhost.example" ≠ "::1" ∧
      (handlePost [] (some "http://evil-localhost.example") none initialGatewayState).2.status =
        400 := by
  refine ⟨by decide, by decide, by decide, by decide, ?_⟩
  simp [handlePost, invalidImportMapResponse, isOriginAllowed, jsIncludes]
  decide

/-- C4 (amended): a POST to the receiver endpoint is rejected with 403 and
the JSON body error Origin not allowed exactly when the caller origin
(Origin header, falling back to Referer) is absent, empty, or neither
contains one of the loopback markers localhost, 127.0.0.1 and the
bracketed IPv6 loopback as a substring nor contains any entry of the configured
allow-list as a substring. -/
theorem c4_origin_rejection (allowedOrigins : List String) (origin : Option String)
    (parsedBody : Option Json) (st : GatewayState) :
    (handlePost allowedOrigins origin parsedBody st).2 = originNotAllowedResponse ↔
      ¬ originAllowedSpec allowedOrigins origin := by
  rw [← isOriginAllowed_iff_spec]
  cases ho : isOriginAllowed allowedOrigins origin with
  | false => simp [handlePost, ho]
  | true =>
    simp only [ho, Bool.not_true]
    cases parsedBody with
    | none =>
      simp [handlePost, ho, invalidImportMapResponse, originNotAllowedResponse]
    | some im =>
      cases hv : validateIm im <;>
        simp [handlePost, ho, hv, invalidImportMapResponse, originNotAllowedResponse,
          importMapSuccessResponse]

theorem c4_origin_rejection_witness :
    (handlePost [] (some "http://evil.example") none initialGatewayState).2 =
      originNotAllowedResponse := by
  refine (c4_origin_rejection [] (some "http://evil.example") none initialGatewayState).mpr ?_
  unfold originAllowedSpec
  decide

/-- C5: a failing POST (origin rejected, parse failure, or shape failure)
leaves the gateway state, hence the stored mapping and the gate, exactly
as it was; the stored mapping is replaced only as a whole by a successful
POST, which also signals the gate. -/
theorem c5_all_or_nothing (allowedOrigins : List String) (origin : Option String)
    (parsedBody : Option Json) (st : GatewayState) :
    ((handlePost allowedOrigins origin parsedBody st).2.status ≠ 200 →
        (handlePost allowedOrigins origin parsedBody st).1 = st) ∧
      ((handlePost allowedOrigins origin parsedBody st).2.status = 200 →
        ∃ im, parsedBody = some im ∧
          (handlePost allowedOrigins origin parsedBody st).1 =
            { importMap := im, gateSignaled := true }) := by
  cases ho : isOriginAllowed allowedOrigins origin with
  | false =>
    constructor
    · intro _
      simp [handlePost, ho]
    · intro hstatus
      simp [handlePost, ho, originNotAllowedResponse] at hstatus
  | true =>
    cases parsedBody with
    | none =>
      constructor
      · intro _
        simp [handlePost, ho]
      · intro hstatus
        simp [handlePost, ho, invalidImportMapResponse] at hstatus
    | some im =>
      cases hv : validateIm im with
      | false =>
        constructor
        · intro _
          simp [handlePost, ho, hv]
        · intro hstatus
          simp [handlePost, ho, hv, invalidImportMapResponse] at hstatus
      | true =>
        constructor
        · intro hstatus
          exfalso
          exact hstatus (by simp [handlePost, ho, hv, importMapSuccessResponse])
        · intro _
          exact ⟨im, rfl, by simp [handlePost, ho, hv]⟩

theorem c5_all_or_nothing_witness :
    (handlePost [] (some "http://evil.example")
        (some (Json.obj [("imports", Json.obj []), ("scopes", Json.obj [])]))
        initialGatewayState).1 = initialGatewayState := by
  refine (c5_all_or_nothing [] (some "http://evil.example")
      (some (Json.obj [("imports", Json.obj []), ("scopes", Json.obj [])]))
      initialGatewayState).1 ?_
  simp [handlePost, isOriginAllowed, originNotAllowedResponse, jsIncludes]
  decide

/-- C2: the admission filter passes a request through (returns false)
exactly when the server is not in serve mode, or the method is not GET, or
the gate is already signaled, or the request URL is one of the fixed
exception paths (index.html, the document root, the Vite client runtime,
and, on root instances only, the sender-script path); in every other case
it returns true and the request must wait on the gate. -/
theorem c2_admission_filter (command : String) (gateSignaled : Bool) (base sender : String)
    (isRoot : Bool) (method url : String) :
    shouldBlockJavaScriptRequest command gateSignaled (stockPathExceptions base isRoot sender)
        method url = false ↔
      (command ≠ "serve" ∨ method ≠ "GET" ∨ gateSignaled = true ∨
        url ∈ stockPathExceptions base isRoot sender) := by
  unfold shouldBlockJavaScriptRequest
  split_ifs with h1 h2 h3 h4 <;> simp_all

/-- C3: once the admission filter has decided to block a request, the
blocking middleware always invokes the next middleware and never writes a
response of its own, for every outcome of the timed gate wait, including a
timeout and a thrown wait; when the wait does not complete normally, every
log line it emits is a warning. -/
theorem c3_gate_timeout_fails_open (wait : WaitOutcome) :
    (blockingMiddleware true wait).nextCalled = true ∧
      (blockingMiddleware true wait).response = none ∧
      (wait ≠ WaitOutcome.ready →
        ∀ e ∈ (blockingMiddleware true wait).logs, e.level = "warn") := by
  cases wait <;> simp [blockingMiddleware]

theorem c3_gate_timeout_fails_open_witness :
    (blockingMiddleware true WaitOutcome.timedOut).nextCalled = true ∧
      (blockingMiddleware true WaitOutcome.timedOut).response = none ∧
      ∀ e ∈ (blockingMiddleware true WaitOutcome.timedOut).logs, e.level = "warn" := by
  have h := c3_gate_timeout_fails_open WaitOutcome.timedOut
  exact ⟨h.1, h.2.1, h.2.2 (by decide)⟩

/-- C6 (counterexample): with the single-entry mapping sending the key a
to the empty string, the exact key exists, yet the resolver returns null
instead of the mapped value, because the direct-mapping test of the source
is a JS truthiness test and the empty string is falsy. -/
theorem c6_counterexample :
    List.lookup "a" [("a", "")] = some "" ∧ resolveFromImportMap [("a", "")] "a" = none :=
  ⟨rfl, rfl⟩

/-- C6 (amended): the resolver returns the exact-match value when the key
exists with a non-empty value; when no such value exists it falls through
to the prefix loop, which returns, for the first key in insertion order
ending in a slash that the specifier starts with, the value concatenated
with the remainder of the specifier (first match, not longest match), and
null when no entry matches; with the two-entry mapping of the claim, the
specifier resolves through the first, shorter, mapping key. -/
theorem c6_resolution_amended (imports : List (String × String)) (id : String) :
    (∀ v, imports.lookup id = some v → v ≠ "" → resolveFromImportMap imports id = some v) ∧
      ((∀ v, imports.lookup id = some v → v = "") →
        resolveFromImportMap imports id = resolvePrefixScan imports id) ∧
      (∀ ante key value post, imports = ante ++ (key, value) :: post →
        jsEndsWith key "/" = true → jsStartsWith id key = true →
        (∀ p ∈ ante, ¬(jsEndsWith p.1 "/" = true ∧ jsStartsWith id p.1 = true)) →
        resolvePrefixScan imports id = some (value ++ jsStringDrop id key.length)) ∧
      ((∀ p ∈ imports, ¬(jsEndsWith p.1 "/" = true ∧ jsStartsWith id p.1 = true)) →
        resolvePrefixScan imports id = none) ∧
      resolveFromImportMap [("@a/", "X/"), ("@a/b/", "Y/")] "@a/b/c" = some "X/b/c" := by
  refine ⟨?_, ?_, ?_, ?_, by decide⟩
  · intro v hv hne
    simp [resolveFromImportMap, hv, hne]
  · intro hall
    cases hv : imports.lookup id with
    | none => simp [resolveFromImportMap, hv]
    | some v =>
      have := hall v hv
      simp [resolveFromImportMap, hv, this]
  · intro ante key value post hsplit hk hs hnone
    subst hsplit
    induction ante with
    | nil => simp [resolvePrefixScan, hk, hs]
    | cons p rest ih =>
      have hp := hnone p (List.mem_cons_self p rest)
      have hcond : (jsEndsWith p.1 "/" && jsStartsWith id p.1) = false := by
        cases hA : jsEndsWith p.1 "/"
        · simp
        · cases hB : jsStartsWith id p.1
          · simp
          · exact absurd ⟨hA, hB⟩ hp
      obtain ⟨p1, p2⟩ := p
      simp only [List.cons_append, resolvePrefixScan]
      simp only at hcond
      rw [hcond]
      simp only [Bool.false_eq_true, if_false]
      exact ih fun q hq => hnone q (List.mem_cons_of_mem _ hq)
  · intro hnone
    induction imports with
    | nil => rfl
    | cons p rest ih =>
      have hp := hnone p (List.mem_cons_self p rest)
      have hcond : (jsEndsWith p.1 "/" && jsStartsWith id p.1) = false := by
        cases hA : jsEndsWith p.1 "/"
        · simp
        · cases hB : jsStartsWith id p.1
          · simp
          · exact absurd ⟨hA, hB⟩ hp
      obtain ⟨p1, p2⟩ := p
      simp only [resolvePrefixScan]
      simp only at hcond
      rw [hcond]
      simp only [Bool.false_eq_true, if_false]
      exact ih fun q hq => hnone q (List.mem_cons_of_mem _ hq)

theorem c6_resolution_amended_witness :
    List.lookup "@a/b" [("@a/b", "cd")] = some "cd" ∧ ("cd" : String) ≠ "" ∧
      resolveFromImportMap [("@a/b", "cd")] "@a/b" = some "cd" :=
  ⟨rfl, by decide, (c6_resolution_amended [("@a/b", "cd")] "@a/b").1 "cd" rfl (by decide)⟩

/-- C7: at a bare specifier that the import map resolves, the resolveId
hook emits the resolved URL, not the original bare specifier, as the
module id of the bundler output (while still marking it external); the
source uses the resolved-or-original expression for the returned id, in
contradiction with its own documentation comment, which promises that the
original bare identifier is preserved in the output and that the mapping
is consulted for logging purposes. -/
theorem c7_resolved_url_emitted :
    resolveIdHook defaultIsBareIdentifier [("@demo/x", "http://localhost:4101/x.js")] "@demo/x" =
      some { id := "http://localhost:4101/x.js", external := true } ∧
      ("http://localhost:4101/x.js" : String) ≠ "@demo/x" :=
  ⟨rfl, by decide⟩

/-- C9: on a root instance, when reading the sender-script file fails, the
middleware does not deliver a 500 JSON response: the head was already
written with status 200 and the JavaScript content type before the read
was attempted, so the catch block throws on its writeHead call and no body
is ever sent; on a successful read the response is the 200 JavaScript one
with the placeholders substituted. -/
theorem c9_sender_script_read_failure :
    (senderScriptMiddleware true "/__current_import_map" (Except.error "ENOENT")).threw = true ∧
      (senderScriptMiddleware true "/__current_import_map" (Except.error "ENOENT")).res.headWritten
        = some (200, [("Content-Type", "application/javascript"),
                      ("Access-Control-Allow-Origin", "*")]) ∧
      (senderScriptMiddleware true "/__current_import_map" (Except.error "ENOENT")).res.ended =
        none ∧
      (senderScriptMiddleware true "/__current_import_map"
          (Except.ok "(function () \x7b\x7d)();")).res =
        { headWritten := some (200, [("Content-Type", "application/javascript"),
                                     ("Access-Control-Allow-Origin", "*")])
          ended := some "(function () \x7b\x7d)(true, \x27/__current_import_map\x27);" } :=
  ⟨rfl, rfl, rfl, rfl⟩

/-- C10 (counterexample): with the default base path, the document-root
entry of the exception list is the empty string, so appending the
non-empty suffix index.html to that excepted path yields another excepted
path, and the filter returns false for it in serve mode on an unsignaled
GET, contradicting the claim that any suffixed excepted path is still
blocked. -/
theorem c10_counterexample :
    ("" : String) ∈ stockPathExceptions "/" true "/__collagejs-import-map-sender.js" ∧
      ("" ++ "index.html" : String) = "index.html" ∧
      ("index.html" : String) ≠ "" ∧
      shouldBlockJavaScriptRequest "serve" false
        (stockPathExceptions "/" true "/__collagejs-import-map-sender.js") "GET"
        ("" ++ "index.html") = false := by
  refine ⟨by decide, rfl, by decide, by decide⟩

/-- C10 (amended): the admission filter compares the raw request URL with
the exception list by exact string equality, so in serve mode, on a GET,
with the gate unsignaled, a URL formed by appending a non-empty suffix to
an excepted path is still blocked, provided the suffixed URL is not
itself an entry of the exception list (as with a query string such as
index.html followd by a version query). -/
theorem c10_admission_exact_match (base sender : String) (isRoot : Bool)
    (excepted suffix : String)
    (hmem : excepted ∈ stockPathExceptions base isRoot sender)
    (hsuf : suffix ≠ "")
    (hnot : excepted ++ suffix ∉ stockPathExceptions base isRoot sender) :
    shouldBlockJavaScriptRequest "serve" false (stockPathExceptions base isRoot sender) "GET"
      (excepted ++ suffix) = true := by
  simp [shouldBlockJavaScriptRequest, hnot]

theorem c10_admission_exact_match_witness :
    shouldBlockJavaScriptRequest "serve" false
        (stockPathExceptions "/" true "/__collagejs-import-map-sender.js") "GET"
        ("" ++ "/index.html?v=1") = true :=
  c10_admission_exact_match "/" "/__collagejs-import-map-sender.js" true "" "/index.html?v=1"
    (by decide) (by decide) (by decide)

theorem drop_lineContentLength (u : List Char) :
    u.drop (lineContentLength u) = [] ∨
      ∃ c r, u.drop (lineContentLength u) = c :: r ∧ isLineTerminator c = true := by
  induction u with
  | nil => left; rfl
  | cons c rest ih =>
    cases hc : isLineTerminator c
    · simpa [lineContentLength, hc] using ih
    · right
      exact ⟨c, rest, by simp [lineContentLength, hc], hc⟩

theorem importBodyLength_pos {w : Nat} {u : List Char} {len : Nat}
    (h : importBodyLength w u = some len) : 0 < len := by
  cases u with
  | nil => cases h
  | cons c rest =>
    simp only [importBodyLength] at h
    by_cases hws : jsWsChar c = true
    · rw [if_pos hws] at h
      by_cases hb : lineContentLength rest = 0
      · rw [if_pos hb] at h
        cases h
      · rw [if_neg hb] at h
        injection h with h
        omega
    · rw [if_neg hws] at h
      cases h

theorem importMatchLength_pos {t : List Char} {len : Nat}
    (h : importMatchLength t = some len) : 0 < len := by
  unfold importMatchLength at h
  by_cases h6 : (t.drop (wsRunLength t)).take 6 = "import".data
  · rw [if_pos h6] at h
    exact importBodyLength_pos h
  · rw [if_neg h6] at h
    cases h

theorem importBodyLength_shape {w : Nat} {u : List Char} {len : Nat}
    (h : importBodyLength w u = some len) :
    ∃ c rest, u = c :: rest ∧ len = w + 7 + lineContentLength rest ∧
      lineContentLength rest ≠ 0 := by
  cases u with
  | nil => cases h
  | cons c rest =>
    simp only [importBodyLength] at h
    by_cases hws : jsWsChar c = true
    · rw [if_pos hws] at h
      by_cases hb : lineContentLength rest = 0
      · rw [if_pos hb] at h
        cases h
      · rw [if_neg hb] at h
        injection h with h
        exact ⟨c, rest, rfl, h.symm, hb⟩
    · rw [if_neg hws] at h
      cases h

theorem importMatchLength_boundary {t : List Char} {len : Nat}
    (h : importMatchLength t = some len) :
    t.drop len = [] ∨ ∃ c r, t.drop len = c :: r ∧ isLineTerminator c = true := by
  unfold importMatchLength at h
  by_cases h6 : (t.drop (wsRunLength t)).take 6 = "import".data
  · rw [if_pos h6] at h
    obtain ⟨c, rest, hm, hlen, -⟩ := importBodyLength_shape h
    subst hlen
    have e2 : List.drop (wsRunLength t + 7) t = rest := by
      have e3 : List.drop (wsRunLength t + 7) t =
          List.drop 1 (List.drop 6 (List.drop (wsRunLength t) t)) := by
        rw [List.drop_drop, List.drop_drop]
      rw [e3, hm]
      rfl
    have e1 : List.drop (wsRunLength t + 7 + lineContentLength rest) t =
        List.drop (lineContentLength rest) rest := by
      rw [← e2, List.drop_drop]
    rw [e1]
    exact drop_lineContentLength rest
  · rw [if_neg h6] at h
    cases h

theorem lastImportScan_le (s : List Char) (cands : List Nat) :
    ∀ (minPos : Nat) (acc : Option Nat) (e : Nat),
      (acc = none ∨ acc = some minPos) →
      lastImportScan s cands minPos acc = some e → minPos ≤ e := by
  induction cands with
  | nil =>
    intro minPos acc e hacc h
    simp only [lastImportScan] at h
    rcases hacc with h1 | h1 <;> rw [h1] at h
    · cases h
    · injection h with h
      omega
  | cons c rest ih =>
    intro minPos acc e hacc h
    simp only [lastImportScan] at h
    by_cases hc : c < minPos
    · rw [if_pos hc] at h
      exact ih minPos acc e hacc h
    · rw [if_neg hc] at h
      cases hm : importMatchLength (s.drop c) with
      | none =>
        rw [hm] at h
        exact ih minPos acc e hacc h
      | some len =>
        rw [hm] at h
        have := ih (c + len) (some (c + len)) e (Or.inr rfl) h
        omega

theorem lastImportScan_some_acc (s : List Char) (cands : List Nat) :
    ∀ (minPos a : Nat), lastImportScan s cands minPos (some a) ≠ none := by
  induction cands with
  | nil =>
    intro minPos a h
    simp [lastImportScan] at h
  | cons c rest ih =>
    intro minPos a h
    simp only [lastImportScan] at h
    by_cases hc : c < minPos
    · rw [if_pos hc] at h
      exact ih minPos a h
    · rw [if_neg hc] at h
      cases hm : importMatchLength (s.drop c) with
      | none =>
        rw [hm] at h
        exact ih minPos a h
      | some len =>
        rw [hm] at h
        exact ih (c + len) (c + len) h

theorem lastImportScan_none (s : List Char) (cands : List Nat) :
    ∀ (minPos : Nat), lastImportScan s cands minPos none = none →
      ∀ c ∈ cands, minPos ≤ c → importMatchLength (s.drop c) = none := by
  induction cands with
  | nil =>
    intro minPos _ c hc
    cases hc
  | cons d rest ih =>
    intro minPos h c hc hle
    simp only [lastImportScan] at h
    by_cases hd : d < minPos
    · rw [if_pos hd] at h
      rcases List.mem_cons.mp hc with rfl | hc2
      · exact absurd hle (by omega)
      · exact ih minPos h c hc2 hle
    · rw [if_neg hd] at h
      cases hm : importMatchLength (s.drop d) with
      | none =>
        rw [hm] at h
        rcases List.mem_cons.mp hc with rfl | hc2
        · exact hm
        · exact ih minPos h c hc2 hle
      | some len =>
        rw [hm] at h
        exact absurd h (lastImportScan_some_acc s rest (d + len) (d + len))

theorem lastImportScan_last (s : List Char) (cands : List Nat) :
    ∀ (minPos : Nat) (acc : Option Nat) (e : Nat),
      (acc = none ∨ acc = some minPos) →
      lastImportScan s cands minPos acc = some e →
      ∀ c ∈ cands, e ≤ c → importMatchLength (s.drop c) = none := by
  induction cands with
  | nil =>
    intro minPos acc e _ _ c hc
    cases hc
  | cons d rest ih =>
    intro minPos acc e hacc h c hc hle
    simp only [lastImportScan] at h
    by_cases hd : d < minPos
    · rw [if_pos hd] at h
      have hme := lastImportScan_le s rest minPos acc e hacc h
      rcases List.mem_cons.mp hc with rfl | hc2
      · exact absurd hle (by omega)
      · exact ih minPos acc e hacc h c hc2 hle
    · rw [if_neg hd] at h
      cases hm : importMatchLength (s.drop d) with
      | none =>
        rw [hm] at h
        rcases List.mem_cons.mp hc with rfl | hc2
        · exact hm
        · exact ih minPos acc e hacc h c hc2 hle
      | some len =>
        rw [hm] at h
        have hlen : 0 < len := importMatchLength_pos hm
        have hme := lastImportScan_le s rest (d + len) (some (d + len)) e (Or.inr rfl) h
        rcases List.mem_cons.mp hc with rfl | hc2
        · exact absurd hle (by omega)
        · exact ih (d + len) (some (d + len)) e (Or.inr rfl) h c hc2 hle

theorem lastImportScan_match (s : List Char) (cands : List Nat) :
    ∀ (minPos : Nat) (acc : Option Nat) (e : Nat),
      lastImportScan s cands minPos acc = some e →
      acc = some e ∨ ∃ c len, importMatchLength (s.drop c) = some len ∧ e = c + len := by
  induction cands with
  | nil =>
    intro minPos acc e h
    left
    simpa [lastImportScan] using h
  | cons d rest ih =>
    intro minPos acc e h
    simp only [lastImportScan] at h
    by_cases hd : d < minPos
    · rw [if_pos hd] at h
      exact ih minPos acc e h
    · rw [if_neg hd] at h
      cases hm : importMatchLength (s.drop d) with
      | none =>
        rw [hm] at h
        exact ih minPos acc e h
      | some len =>
        rw [hm] at h
        rcases ih (d + len) (some (d + len)) e h with hacc | hex
        · injection hacc with hacc
          right
          exact ⟨d, len, hm, hacc.symm⟩
        · right
          exact hex

/-- C8: for every source text of the dev-server client script, when the
import-statement scan finds no match, the transform prepends the full
sender-script text (and indeed no caret position of the text matches the
import-statement pattern); when the scan answers an index, that index lies
at the end of a line, the transform splices the full sender-script text
there between two line breaks, the original text is preserved verbatim as
the two unmodified pieces around the splice point (so no existing
static import is converted to a dynamic one), and no import-statement match
starts at or after the splice point. -/
theorem c8_sender_injection (imsScript code : String) :
    (findLastImportStatement code = -1 →
        injectSenderScript imsScript code = imsScript ++ "\n" ++ code ∧
          ∀ p ∈ lineStarts code.data, importMatchLength (code.data.drop p) = none) ∧
      (∀ idx : Nat, findLastImportStatement code = Int.ofNat idx →
        injectSenderScript imsScript code =
          String.mk (code.data.take idx) ++ "\n" ++ imsScript ++ "\n" ++
            String.mk (code.data.drop idx) ∧
          code.data.take idx ++ code.data.drop idx = code.data ∧
          (code.data.drop idx = [] ∨
            ∃ c r, code.data.drop idx = c :: r ∧ isLineTerminator c = true) ∧
          ∀ p ∈ lineStarts code.data, idx ≤ p → importMatchLength (code.data.drop p) = none) := by
  cases hscan : lastImportScan code.data (lineStarts code.data) 0 none with
  | none =>
    have hfind : findLastImportStatement code = -1 := by
      unfold findLastImportStatement
      rw [hscan]
    constructor
    · intro _
      constructor
      · unfold injectSenderScript
        rw [hfind]
        rfl
      · intro p hp
        exact lastImportScan_none code.data (lineStarts code.data) 0 hscan p hp (Nat.zero_le p)
    · intro idx hidx
      exfalso
      rw [hfind] at hidx
      rw [Int.ofNat_eq_natCast] at hidx
      omega
  | some e =>
    have hfind : findLastImportStatement code = Int.ofNat e := by
      unfold findLastImportStatement
      rw [hscan]
    constructor
    · intro hneg
      exfalso
      rw [hfind] at hneg
      rw [Int.ofNat_eq_natCast] at hneg
      omega
    · intro idx hidx
      rw [hfind] at hidx
      have hide : idx = e := (Int.ofNat.inj hidx).symm
      subst hide
      refine ⟨?_, List.take_append_drop idx code.data, ?_, ?_⟩
      · unfold injectSenderScript
        rw [hfind]
        rw [if_neg (show ¬(Int.ofNat idx = -1) by rw [Int.ofNat_eq_natCast]; omega)]
        simp
      · rcases lastImportScan_match code.data (lineStarts code.data) 0 none idx hscan with
          hacc | ⟨c, len, hm, hlen⟩
        · cases hacc
        · subst hlen
          have hsplit : code.data.drop (c + len) = (code.data.drop c).drop len := by
            rw [List.drop_drop]
          rw [hsplit]
          exact importMatchLength_boundary hm
      · intro p hp hle
        exact lastImportScan_last code.data (lineStarts code.data) 0 none idx (Or.inl rfl)
          hscan p hp hle

theorem c8_sender_injection_witness :
    findLastImportStatement "import a;\nconst x = 1;" = Int.ofNat 9 ∧
      injectSenderScript "SENDER" "import a;\nconst x = 1;" =
        "import a;\nSENDER\n\nconst x = 1;" := by
  have h9 : findLastImportStatement "import a;\nconst x = 1;" = Int.ofNat 9 := by decide
  refine ⟨h9, ?_⟩
  have h := (c8_sender_injection "SENDER" "import a;\nconst x = 1;").2 9 h9
  rw [h.1]
  decide

theorem c2_admission_filter_witness :
    shouldBlockJavaScriptRequest "serve" false
        (stockPathExceptions "/" true "/__collagejs-import-map-sender.js") "GET"
        "index.html" = false :=
  (c2_admission_filter "serve" false "/" "/__collagejs-import-map-sender.js" true "GET"
      "index.html").mpr
    (Or.inr (Or.inr (Or.inr (by decide))))
